import Mathlib

/-!
# hphp/runtime/base/annot-type.cpp

A shallow embedding of the type-annotation classifier of
`hphp/runtime/base/annot-type.cpp`: the name table built by `getAnnotTypeMaps`
and consulted by the two overloads of `nameToAnnotType`, the interface
capability predicates `interface_supports_*` with their helper `isame`, and
`annotDefaultValue`.

Text is a list of C `char` values, each a natural number (a byte value).
-/

namespace HPHP

/-! ## Text -/

/-- A string literal of the source as the list of its `char` values.  All
literals of `annot-type.cpp` are ASCII, so code points and bytes coincide. -/
def lit (s : String) : List Nat := s.toList.map Char.toNat

/-- The C library `tolower` in the "C" locale: `'A'..'Z'` (65..90) go to
`'a'..'z'`, every other value is unchanged. -/
def tolower (c : Nat) : Nat := if 65 ≤ c ∧ c ≤ 90 then c + 32 else c

/-- The C library `strcasecmp(p1, p2)` in the "C" locale.  An argument is the
memory found at the pointer; the end of the list stands for a terminating NUL,
and a `0` inside the list is a NUL as well.  As in libc, the two texts are
walked in step, the result is the difference of the first pair of folded
`char`s that differ, and `0` when the NUL of `p1` is reached first. -/
def strcasecmp : List Nat → List Nat → Int
  | [], [] => 0
  | [], c2 :: _ => (tolower 0 : Int) - (tolower c2 : Int)
  | c1 :: _, [] => (tolower c1 : Int) - (tolower 0 : Int)
  | c1 :: p1, c2 :: p2 =>
    if tolower c1 ≠ tolower c2 then (tolower c1 : Int) - (tolower c2 : Int)
    else if c1 = 0 then 0
    else strcasecmp p1 p2

/-- A `folly::StringPiece`: the range `[begin, end)` of a buffer. `range` holds
the `char`s of the range (`size()` of them); `rest` holds the `char`s that
follow `end` in the same buffer, up to the NUL that ends the buffer (`rest` is
empty when the range itself is followed by a NUL, as for the slice of a
`std::string`, a `StringData` or a `StaticString`). -/
structure StringPiece where
  range : List Nat
  rest : List Nat
  deriving DecidableEq, Repr

/-- `StringPiece::size()`. -/
def StringPiece.size (a : StringPiece) : Nat := a.range.length

/-- `StringPiece::data()`: the pointer `begin`, read as C text it shows the
range followed by whatever the buffer holds after it. -/
def StringPiece.data (a : StringPiece) : List Nat := a.range ++ a.rest

/-- A `StringData` (also the payload of a `StaticString`): its `char`s, `size()`
of them; the object keeps a NUL after them. -/
structure StringData where
  chars : List Nat
  deriving DecidableEq, Repr

/-- `StringData::size()`. -/
def StringData.size (s : StringData) : Nat := s.chars.length

/-- `StringData::slice()` (and `StaticString::slice()`): the range over the
`char`s of the string, which a NUL follows. -/
def StringData.slice (s : StringData) : StringPiece := ⟨s.chars, []⟩

/-- `makeStaticString(const char*)`: the interned string with the text's
content. -/
def makeStaticString (name : List Nat) : StringData := ⟨name⟩

/-- A `StaticString` constructed from a literal. -/
def StaticString (s : String) : StringData := makeStaticString (lit s)

/-! ## The taxonomy -/

/-- Modelled from the spec: the enum `AnnotType` is declared in `annot-type.h`,
which is not part of the sources given here.  The specification gives the taxonomy as
a closed set of tags with one arm of the default-value switch per tag; the tags
are the ones `annot-type.cpp` names: the 27 case labels of the switch of
`annotDefaultValue`, which include every tag used by the table of
`getAnnotTypeMaps`. -/
inductive AnnotType where
  | Mixed | Self | Parent | This | Callable | Resource | Object | Nothing
  | Record | NoReturn | Null | Nonnull | Number | ArrayKey | Int | Bool | Float
  | DArray | VArray | VArrOrDArr | ArrayLike | VecOrDict | Vec | String | Array
  | Dict | Keyset
  deriving DecidableEq, Repr

/-- A failed `assertx` / `always_assert`: the process aborts. -/
inductive Abort where
  | assertx
  | always_assert
  deriving DecidableEq, Repr

deriving instance DecidableEq for Except

/-! ## The name table -/

/-- Case-insensitive equality of two texts of known length: equal lengths and
equal `char`s after `tolower`. -/
def bstrcaseeq : List Nat → List Nat → Bool
  | [], [] => true
  | c1 :: s1, c2 :: s2 => tolower c1 == tolower c2 && bstrcaseeq s1 s2
  | _, _ => false

/-- The key equality `string_data_isame` named by the `HhvmStrToTypeMap`
typedef.  Its declaration (`string-data.h`) is not part of the sources given here; as
its name says, and like the helper `isame` of `annot-type.cpp`, it is the
case-insensitive comparison of two `StringData`: same size and same `char`s
after ASCII case folding. -/
def string_data_isame (s1 s2 : StringData) : Bool :=
  s1.size == s2.size && bstrcaseeq s1.chars s2.chars

/-- The key equality of `hphp_string_imap`, the case-insensitive string map
named by the `StdStrToTypeMap` typedef.  Its declaration (`hash-map.h`) is not
part of the sources given here; two `std::string`s are the same key when they have the
same size and the same `char`s after ASCII case folding. -/
def string_eqstri (s1 s2 : List Nat) : Bool :=
  s1.length == s2.length && bstrcaseeq s1 s2

/-- A `hphp_hash_map<K, V, Hash, Eq>`, as the list of its entries; the hash
functor is consistent with the key equality `Eq`, which alone decides what a
lookup finds. -/
abbrev hphp_hash_map (K V : Type) := List (K × V)

/-- The assignment `m[k] = v` under the key equality `eq`: the entry whose key
equals `k` gets the value `v`, and when there is none the entry `(k, v)` is
added. -/
def hphp_hash_map.set {K V : Type} (eq : K → K → Bool) :
    hphp_hash_map K V → K → V → hphp_hash_map K V
  | [], k, v => [(k, v)]
  | (k0, v0) :: m, k, v =>
    if eq k0 k then (k0, v) :: m else (k0, v0) :: hphp_hash_map.set eq m k v

/-- The lookup `folly::get_ptr(m, k)`: the value of the entry whose key equals
`k`, or null (`none`). -/
def get_ptr {K V : Type} (eq : K → K → Bool) (m : hphp_hash_map K V) (k : K) :
    Option V :=
  (m.find? (fun e => eq e.1 k)).map (fun e => e.2)

/-- `HhvmStrToTypeMap`. -/
abbrev HhvmStrToTypeMap := hphp_hash_map StringData AnnotType

/-- `StdStrToTypeMap`. -/
abbrev StdStrToTypeMap := hphp_hash_map (List Nat) AnnotType

/-- The array `pairs` of `getAnnotTypeMaps`; `EvalHackArrDVArrs` is the value
of `RuntimeOption::EvalHackArrDVArrs` when the array is initialised. -/
def pairs (EvalHackArrDVArrs : Bool) : List (List Nat × AnnotType) := [
  (lit "HH\\nothing", AnnotType.Nothing),
  (lit "HH\\noreturn", AnnotType.NoReturn),
  (lit "HH\\null", AnnotType.Null),
  (lit "HH\\void", AnnotType.Null),
  (lit "HH\\bool", AnnotType.Bool),
  (lit "HH\\int", AnnotType.Int),
  (lit "HH\\float", AnnotType.Float),
  (lit "HH\\string", AnnotType.String),
  (lit "array", AnnotType.Array),
  (lit "HH\\resource", AnnotType.Resource),
  (lit "HH\\mixed", AnnotType.Mixed),
  (lit "HH\\nonnull", AnnotType.Nonnull),
  (lit "HH\\num", AnnotType.Number),
  (lit "HH\\arraykey", AnnotType.ArrayKey),
  (lit "HH\\this", AnnotType.This),
  (lit "self", AnnotType.Self),
  (lit "parent", AnnotType.Parent),
  (lit "callable", AnnotType.Callable),
  (lit "HH\\dict", AnnotType.Dict),
  (lit "HH\\vec", AnnotType.Vec),
  (lit "HH\\keyset", AnnotType.Keyset),
  (lit "HH\\varray",
    if EvalHackArrDVArrs then AnnotType.Vec else AnnotType.VArray),
  (lit "HH\\darray",
    if EvalHackArrDVArrs then AnnotType.Dict else AnnotType.DArray),
  (lit "HH\\varray_or_darray",
    if EvalHackArrDVArrs then AnnotType.VecOrDict else AnnotType.VArrOrDArr),
  (lit "HH\\vec_or_dict", AnnotType.VecOrDict),
  (lit "HH\\arraylike", AnnotType.ArrayLike)]

/-- The loop of `getAnnotTypeMaps` over the entries still to insert: each entry
is assigned into both maps. -/
def getAnnotTypeMaps.loop :
    List (List Nat × AnnotType) → HhvmStrToTypeMap × StdStrToTypeMap →
      HhvmStrToTypeMap × StdStrToTypeMap
  | [], mappedPairs => mappedPairs
  | (name, type) :: ps, mappedPairs =>
    getAnnotTypeMaps.loop ps
      (hphp_hash_map.set string_data_isame mappedPairs.1 (makeStaticString name) type,
       hphp_hash_map.set string_eqstri mappedPairs.2 name type)

/-- The initialiser of the static `mapPair` of `getAnnotTypeMaps`, run with the
given value of `RuntimeOption::EvalHackArrDVArrs`. -/
def getAnnotTypeMaps (EvalHackArrDVArrs : Bool) :
    HhvmStrToTypeMap × StdStrToTypeMap :=
  getAnnotTypeMaps.loop (pairs EvalHackArrDVArrs) ([], [])

/-- `nameToAnnotType(const StringData*)`; a null pointer is `none` and fails
the `assertx`.  The result `none` is the null pointer returned for a name that
is not in the map. -/
def nameToAnnotType (EvalHackArrDVArrs : Bool) (typeName : Option StringData) :
    Except Abort (Option AnnotType) :=
  match typeName with
  | none => Except.error Abort.assertx
  | some typeName =>
    let mapPair := getAnnotTypeMaps EvalHackArrDVArrs
    Except.ok (get_ptr string_data_isame mapPair.1 typeName)

/-- `nameToAnnotType(const std::string&)`, with its `assertx` that the result
is not `AnnotType::Object`. -/
def nameToAnnotTypeStr (EvalHackArrDVArrs : Bool) (typeName : List Nat) :
    Except Abort (Option AnnotType) :=
  let mapPair := getAnnotTypeMaps EvalHackArrDVArrs
  let t := get_ptr string_eqstri mapPair.2 typeName
  if t = some AnnotType.Object then Except.error Abort.assertx else Except.ok t

/-! ## Interface capabilities -/

/-- The interface names `s_HH_Traversable` .. `s_Stringish`. -/
def s_HH_Traversable : StringData := StaticString "HH\\Traversable"

/-- The `StaticString` `s_HH_RX_Traversable`. -/
def s_HH_RX_Traversable : StringData := StaticString "HH\\Rx\\Traversable"

/-- The `StaticString` `s_HH_KeyedTraversable`. -/
def s_HH_KeyedTraversable : StringData := StaticString "HH\\KeyedTraversable"

/-- The `StaticString` `s_HH_RX_KeyedTraversable`. -/
def s_HH_RX_KeyedTraversable : StringData := StaticString "HH\\Rx\\KeyedTraversable"

/-- The `StaticString` `s_HH_Container`. -/
def s_HH_Container : StringData := StaticString "HH\\Container"

/-- The `StaticString` `s_HH_KeyedContainer`. -/
def s_HH_KeyedContainer : StringData := StaticString "HH\\KeyedContainer"

/-- The `StaticString` `s_XHPChild`. -/
def s_XHPChild : StringData := StaticString "XHPChild"

/-- The `StaticString` `s_Stringish`. -/
def s_Stringish : StringData := StaticString "Stringish"

/-- The helper `isame` of `annot-type.cpp`:
`a.size() == b.size() && !strcasecmp(a.data(), b.data())`.  The sizes are those
of the two ranges; `strcasecmp` reads each text from `data()` to the next NUL,
whatever the size of the range. -/
def isame (a b : StringPiece) : Bool :=
  a.size == b.size && strcasecmp a.data b.data == 0

/-- `interface_supports_arrlike(folly::StringPiece)`. -/
def interface_supports_arrlike (s : StringPiece) : Bool :=
  isame s s_HH_Traversable.slice ||
  isame s s_HH_KeyedTraversable.slice ||
  isame s s_HH_RX_Traversable.slice ||
  isame s s_HH_RX_KeyedTraversable.slice ||
  isame s s_HH_Container.slice ||
  isame s s_HH_KeyedContainer.slice ||
  isame s s_XHPChild.slice

/-- `interface_supports_non_objects(folly::StringPiece)`. -/
def interface_supports_non_objects (s : StringPiece) : Bool :=
  interface_supports_arrlike s ||
  isame s s_Stringish.slice

/-- `interface_supports_string(folly::StringPiece)`. -/
def interface_supports_string (s : StringPiece) : Bool :=
  isame s s_XHPChild.slice ||
  isame s s_Stringish.slice

/-- `interface_supports_int(folly::StringPiece)`. -/
def interface_supports_int (s : StringPiece) : Bool :=
  isame s s_XHPChild.slice

/-- `interface_supports_double(folly::StringPiece)`. -/
def interface_supports_double (s : StringPiece) : Bool :=
  isame s s_XHPChild.slice

/-- `interface_supports_non_objects(const StringData*)`. -/
def interface_supports_non_objects_sd (s : StringData) : Bool :=
  interface_supports_non_objects s.slice

/-- `interface_supports_arrlike(const StringData*)`. -/
def interface_supports_arrlike_sd (s : StringData) : Bool :=
  interface_supports_arrlike s.slice

/-- `interface_supports_string(const StringData*)`. -/
def interface_supports_string_sd (s : StringData) : Bool :=
  interface_supports_string s.slice

/-- `interface_supports_int(const StringData*)`. -/
def interface_supports_int_sd (s : StringData) : Bool :=
  interface_supports_int s.slice

/-- `interface_supports_double(const StringData*)`. -/
def interface_supports_double_sd (s : StringData) : Bool :=
  interface_supports_double s.slice

/-! ## Default values -/

/-- Modelled from the spec: the functions `staticEmptyDArray()` ..
`staticEmptyKeysetArray()` and `staticEmptyString()` are not part of the
sources given here.  The specification has them as the provider of the
canonical empty, shared-singleton instance of each container and string
representation: each function returns, on every call, the same static object,
which is named here after the function. -/
inductive StaticObject where
  | staticEmptyDArray | staticEmptyVArray | staticEmptyVec | staticEmptyString
  | staticEmptyArray | staticEmptyDictArray | staticEmptyKeysetArray
  deriving DecidableEq, Repr

/-- The `DataType` tags that `annotDefaultValue` stores.  The tag stored by
`make_persistent_array_like_tv(a)` is computed from the array `a` by a function
that is not part of the sources given here; it is kept as `toPersistentDataType a`. -/
inductive DataType where
  | KindOfNull | KindOfInt64 | KindOfBoolean | KindOfDouble
  | KindOfPersistentVec | KindOfPersistentString
  | KindOfPersistentDict | KindOfPersistentKeyset
  | toPersistentDataType (a : StaticObject)
  deriving DecidableEq, Repr

/-- The payload `m_data` of a `TypedValue`: nothing, an integer, a boolean, a
double (given by the integer literal it is converted from), or a pointer to a
static string or array (two pointers are equal exactly when they point to the
same object). -/
inductive Value where
  | unset
  | num (n : Int)
  | boolean (b : Bool)
  | dbl (d : Int)
  | pstr (obj : StaticObject)
  | parr (obj : StaticObject)
  deriving DecidableEq, Repr

/-- A `TypedValue`: type tag and payload. -/
structure TypedValue where
  m_type : DataType
  m_data : Value
  deriving DecidableEq, Repr

/-- `make_tv<DT>(val)`: the `TypedValue` with the tag `DT` and the payload
`val`. -/
def make_tv (DT : DataType) (val : Value) : TypedValue := ⟨DT, val⟩

/-- `make_persistent_array_like_tv(a)` for a static array `a`. -/
def make_persistent_array_like_tv (a : StaticObject) : TypedValue :=
  ⟨DataType.toPersistentDataType a, Value.parr a⟩

/-- The switch of `annotDefaultValue`: each arm with its case labels and the
value it returns, in the order of the source. -/
def annotDefaultValue.arms : List (List AnnotType × TypedValue) := [
  ([AnnotType.Mixed, AnnotType.Self, AnnotType.Parent, AnnotType.This,
    AnnotType.Callable, AnnotType.Resource, AnnotType.Object, AnnotType.Nothing,
    AnnotType.Record, AnnotType.NoReturn, AnnotType.Null],
    make_tv DataType.KindOfNull Value.unset),
  ([AnnotType.Nonnull, AnnotType.Number, AnnotType.ArrayKey, AnnotType.Int],
    make_tv DataType.KindOfInt64 (Value.num 0)),
  ([AnnotType.Bool], make_tv DataType.KindOfBoolean (Value.boolean false)),
  ([AnnotType.Float], make_tv DataType.KindOfDouble (Value.dbl 0)),
  ([AnnotType.DArray],
    make_persistent_array_like_tv StaticObject.staticEmptyDArray),
  ([AnnotType.VArray, AnnotType.VArrOrDArr],
    make_persistent_array_like_tv StaticObject.staticEmptyVArray),
  ([AnnotType.ArrayLike, AnnotType.VecOrDict, AnnotType.Vec],
    make_tv DataType.KindOfPersistentVec (Value.parr StaticObject.staticEmptyVec)),
  ([AnnotType.String],
    make_tv DataType.KindOfPersistentString (Value.pstr StaticObject.staticEmptyString)),
  ([AnnotType.Array],
    make_persistent_array_like_tv StaticObject.staticEmptyArray),
  ([AnnotType.Dict],
    make_tv DataType.KindOfPersistentDict (Value.parr StaticObject.staticEmptyDictArray)),
  ([AnnotType.Keyset],
    make_tv DataType.KindOfPersistentKeyset
      (Value.parr StaticObject.staticEmptyKeysetArray))]

/-- `annotDefaultValue(AnnotType at)`: the switch jumps to the arm that carries
the label `at` and returns its value; when no arm carries it, control reaches
`always_assert(false)`. -/
def annotDefaultValue (t : AnnotType) : Except Abort TypedValue :=
  match annotDefaultValue.arms.find? (fun arm => arm.1.contains t) with
  | some arm => Except.ok arm.2
  | none => Except.error Abort.always_assert

/-! ## The static table across calls -/

/-- What a call of `getAnnotTypeMaps` depends on in the process: the current
value of `RuntimeOption::EvalHackArrDVArrs`, and the function-local static
`mapPair`, which is `none` until its initialiser has run. -/
structure Process where
  EvalHackArrDVArrs : Bool
  mapPair : Option (HhvmStrToTypeMap × StdStrToTypeMap)
  deriving DecidableEq, Repr

/-- A call of `getAnnotTypeMaps()`: the initialiser of the static `mapPair`
runs on the first call only, with the flag value of that moment; every call
returns the static. -/
def getAnnotTypeMaps.call (p : Process) :
    (HhvmStrToTypeMap × StdStrToTypeMap) × Process :=
  match p.mapPair with
  | some mapPair => (mapPair, p)
  | none =>
    let mapPair := getAnnotTypeMaps p.EvalHackArrDVArrs
    (mapPair, { p with mapPair := some mapPair })

/-- A call of `nameToAnnotType(const StringData*)` in a process. -/
def nameToAnnotType.call (p : Process) (typeName : Option StringData) :
    Except Abort (Option AnnotType) × Process :=
  match typeName with
  | none => (Except.error Abort.assertx, p)
  | some typeName =>
    let r := getAnnotTypeMaps.call p
    (Except.ok (get_ptr string_data_isame r.1.1 typeName), r.2)

/-- A call of `nameToAnnotType(const std::string&)` in a process. -/
def nameToAnnotTypeStr.call (p : Process) (typeName : List Nat) :
    Except Abort (Option AnnotType) × Process :=
  let r := getAnnotTypeMaps.call p
  let t := get_ptr string_eqstri r.1.2 typeName
  (if t = some AnnotType.Object then Except.error Abort.assertx else Except.ok t, r.2)

/-- One event of a run of the process: the flag is assigned, or a name is
resolved in one of the two forms. -/
inductive Event where
  | setFlag (b : Bool)
  | resolveHandle (typeName : StringData)
  | resolveText (typeName : List Nat)
  deriving DecidableEq, Repr

/-- The results of the resolution calls of a sequence of events, in order.  A
failed assertion aborts the process: its result is the last one. -/
def run : Process → List Event → List (Except Abort (Option AnnotType))
  | _, [] => []
  | p, Event.setFlag b :: evs => run { p with EvalHackArrDVArrs := b } evs
  | p, Event.resolveHandle typeName :: evs =>
    let r := nameToAnnotType.call p (some typeName)
    match r.1 with
    | Except.error e => [Except.error e]
    | Except.ok t => Except.ok t :: run r.2 evs
  | p, Event.resolveText typeName :: evs =>
    let r := nameToAnnotTypeStr.call p typeName
    match r.1 with
    | Except.error e => [Except.error e]
    | Except.ok t => Except.ok t :: run r.2 evs

/-! ## Interface capabilities in a locale

`strcasecmp` folds each `char` with the `tolower` of the current `LC_CTYPE`
locale.  The definitions of this section take that `tolower` as the parameter
`tolower_l`; at `tolower`, the fold of the "C" locale, they are the definitions
above. -/

/-- The C library `strcasecmp(p1, p2)` in a locale whose `tolower` is
`tolower_l` (the POSIX `strcasecmp_l`): the walk of `strcasecmp`, each `char`
folded by `tolower_l`. -/
def strcasecmp_l (tolower_l : Nat → Nat) : List Nat → List Nat → Int
  | [], [] => 0
  | [], c2 :: _ => (tolower_l 0 : Int) - (tolower_l c2 : Int)
  | c1 :: _, [] => (tolower_l c1 : Int) - (tolower_l 0 : Int)
  | c1 :: p1, c2 :: p2 =>
    if tolower_l c1 ≠ tolower_l c2 then (tolower_l c1 : Int) - (tolower_l c2 : Int)
    else if c1 = 0 then 0
    else strcasecmp_l tolower_l p1 p2

/-- The helper `isame` of `annot-type.cpp`, run in a locale whose `tolower` is
`tolower_l`: `a.size() == b.size() && !strcasecmp(a.data(), b.data())`. -/
def isame_l (tolower_l : Nat → Nat) (a b : StringPiece) : Bool :=
  a.size == b.size && strcasecmp_l tolower_l a.data b.data == 0

/-- `interface_supports_arrlike(folly::StringPiece)` in a locale. -/
def interface_supports_arrlike_l (tolower_l : Nat → Nat) (s : StringPiece) : Bool :=
  isame_l tolower_l s s_HH_Traversable.slice ||
  isame_l tolower_l s s_HH_KeyedTraversable.slice ||
  isame_l tolower_l s s_HH_RX_Traversable.slice ||
  isame_l tolower_l s s_HH_RX_KeyedTraversable.slice ||
  isame_l tolower_l s s_HH_Container.slice ||
  isame_l tolower_l s s_HH_KeyedContainer.slice ||
  isame_l tolower_l s s_XHPChild.slice

/-- `interface_supports_non_objects(folly::StringPiece)` in a locale. -/
def interface_supports_non_objects_l (tolower_l : Nat → Nat) (s : StringPiece) : Bool :=
  interface_supports_arrlike_l tolower_l s ||
  isame_l tolower_l s s_Stringish.slice

/-- `interface_supports_string(folly::StringPiece)` in a locale. -/
def interface_supports_string_l (tolower_l : Nat → Nat) (s : StringPiece) : Bool :=
  isame_l tolower_l s s_XHPChild.slice ||
  isame_l tolower_l s s_Stringish.slice

/-- `interface_supports_int(folly::StringPiece)` in a locale. -/
def interface_supports_int_l (tolower_l : Nat → Nat) (s : StringPiece) : Bool :=
  isame_l tolower_l s s_XHPChild.slice

/-- `interface_supports_double(folly::StringPiece)` in a locale. -/
def interface_supports_double_l (tolower_l : Nat → Nat) (s : StringPiece) : Bool :=
  isame_l tolower_l s s_XHPChild.slice

/-- `interface_supports_non_objects(const StringData*)` in a locale. -/
def interface_supports_non_objects_sd_l (tolower_l : Nat → Nat) (s : StringData) : Bool :=
  interface_supports_non_objects_l tolower_l s.slice

/-- `interface_supports_arrlike(const StringData*)` in a locale. -/
def interface_supports_arrlike_sd_l (tolower_l : Nat → Nat) (s : StringData) : Bool :=
  interface_supports_arrlike_l tolower_l s.slice

/-- `interface_supports_string(const StringData*)` in a locale. -/
def interface_supports_string_sd_l (tolower_l : Nat → Nat) (s : StringData) : Bool :=
  interface_supports_string_l tolower_l s.slice

/-- `interface_supports_int(const StringData*)` in a locale. -/
def interface_supports_int_sd_l (tolower_l : Nat → Nat) (s : StringData) : Bool :=
  interface_supports_int_l tolower_l s.slice

/-- `interface_supports_double(const StringData*)` in a locale. -/
def interface_supports_double_sd_l (tolower_l : Nat → Nat) (s : StringData) : Bool :=
  interface_supports_double_l tolower_l s.slice

/-- The C library `tolower` in a Turkish single-byte locale
(`tr_TR.ISO-8859-9`): `'I'` (73) goes to the dotless `ı` (253), the dotted `İ`
(221) goes to `'i'` (105), the other capital letters, ASCII and Latin, go to
their small letters 32 further, every other value is unchanged. -/
def tolower_tr (c : Nat) : Nat :=
  if c = 73 then 253
  else if c = 221 then 105
  else if (65 ≤ c ∧ c ≤ 90) ∨ (192 ≤ c ∧ c ≤ 222 ∧ c ≠ 215) then c + 32
  else c

/-! ## Words of the specification -/

/-- ASCII case folding of a text, the comparison key of "equal ignoring ASCII
case" in the specification. -/
def asciiFold (s : List Nat) : List Nat := s.map tolower

/-- The interface names that grant the array-like capability, as the
specification lists them. -/
def arrlikeNames : List (List Nat) :=
  [lit "HH\\Traversable", lit "HH\\KeyedTraversable", lit "HH\\Rx\\Traversable",
   lit "HH\\Rx\\KeyedTraversable", lit "HH\\Container", lit "HH\\KeyedContainer",
   lit "XHPChild"]

/-- The interface names that grant the string capability, as the specification
lists them. -/
def stringNames : List (List Nat) := [lit "XHPChild", lit "Stringish"]

/-- A NUL follows the range of a slice in its buffer: the slice is a
NUL-terminated text, not a view into a longer one. -/
def nulFollows (s : StringPiece) : Prop := s.rest.head?.getD 0 = 0

instance (s : StringPiece) : Decidable (nulFollows s) := by
  unfold nulFollows
  infer_instance

/-- The value of the flag at the first resolution call of a sequence of events
that starts with the flag at `flag` (the last value, when there is no call). -/
def flagAtFirstCall (flag : Bool) : List Event → Bool
  | [] => flag
  | Event.setFlag b :: evs => flagAtFirstCall b evs
  | _ :: _ => flag

/-- What an event returns when the table is the one built with the flag value
`f`: nothing for an assignment of the flag, the result of the resolution for a
call. -/
def answer (f : Bool) : Event → Option (Except Abort (Option AnnotType))
  | Event.setFlag _ => none
  | Event.resolveHandle typeName => some (nameToAnnotType f (some typeName))
  | Event.resolveText typeName => some (nameToAnnotTypeStr f typeName)

/-- The categories whose default the specification gives as the null value. -/
def nullCategories : List AnnotType :=
  [AnnotType.Null, AnnotType.Mixed, AnnotType.Self, AnnotType.Parent, AnnotType.This,
   AnnotType.Callable, AnnotType.Resource, AnnotType.Nothing, AnnotType.NoReturn,
   AnnotType.Object, AnnotType.Record]

/-- The categories whose default the specification gives as integer zero. -/
def intCategories : List AnnotType :=
  [AnnotType.Nonnull, AnnotType.Number, AnnotType.ArrayKey, AnnotType.Int]

/-- The array-representation categories: the six representations and the three
unions. -/
def arrayCategories : List AnnotType :=
  [AnnotType.Array, AnnotType.Dict, AnnotType.Vec, AnnotType.Keyset, AnnotType.VArray,
   AnnotType.DArray, AnnotType.VecOrDict, AnnotType.VArrOrDArr, AnnotType.ArrayLike]

/-- The type tags of a null, integer, boolean, float or string value. -/
def scalarTypes : List DataType :=
  [DataType.KindOfNull, DataType.KindOfInt64, DataType.KindOfBoolean,
   DataType.KindOfDouble, DataType.KindOfPersistentString]

/-- The container and string representations of the specification. -/
inductive Representation where
  | array | dict | vec | keyset | varray | darray | string
  deriving DecidableEq, Repr

/-- Modelled from the spec: the representation of the shared empty instance
that each of the functions `staticEmptyDArray()` .. `staticEmptyString()` (not
part of the sources given here) returns: the one in the function's name. -/
def StaticObject.representation : StaticObject → Representation
  | StaticObject.staticEmptyDArray => Representation.darray
  | StaticObject.staticEmptyVArray => Representation.varray
  | StaticObject.staticEmptyVec => Representation.vec
  | StaticObject.staticEmptyString => Representation.string
  | StaticObject.staticEmptyArray => Representation.array
  | StaticObject.staticEmptyDictArray => Representation.dict
  | StaticObject.staticEmptyKeysetArray => Representation.keyset

/-- The representations that a category admits, in the words of the
specification: each array-representation category its own, `VecOrDict` vec or
dict, `VArrOrDArr` varray or darray, `ArrayLike` every array representation,
`String` the string. -/
def admits : AnnotType → Representation → Bool
  | AnnotType.Array, r => r == Representation.array
  | AnnotType.Dict, r => r == Representation.dict
  | AnnotType.Vec, r => r == Representation.vec
  | AnnotType.Keyset, r => r == Representation.keyset
  | AnnotType.VArray, r => r == Representation.varray
  | AnnotType.DArray, r => r == Representation.darray
  | AnnotType.VecOrDict, r => r == Representation.vec || r == Representation.dict
  | AnnotType.VArrOrDArr, r => r == Representation.varray || r == Representation.darray
  | AnnotType.ArrayLike, r => r != Representation.string
  | AnnotType.String, r => r == Representation.string
  | _, _ => false

/-- The static object a `TypedValue` points to, when its payload is a pointer. -/
def TypedValue.pointer (v : TypedValue) : Option StaticObject :=
  match v.m_data with
  | Value.pstr obj => some obj
  | Value.parr obj => some obj
  | _ => none

/-- The type tags of values that are not reference-counted: the persistent
container and string tags. -/
def DataType.isPersistent : DataType → Bool
  | DataType.KindOfPersistentVec => true
  | DataType.KindOfPersistentString => true
  | DataType.KindOfPersistentDict => true
  | DataType.KindOfPersistentKeyset => true
  | DataType.toPersistentDataType _ => true
  | _ => false

/-! ## Lemmas on texts and maps -/

theorem tolower_eq_zero {c : Nat} : tolower c = 0 ↔ c = 0 := by
  unfold tolower
  split <;> omega

theorem bstrcaseeq_iff (a b : List Nat) :
    bstrcaseeq a b = true ↔ asciiFold a = asciiFold b := by
  induction a generalizing b with
  | nil => cases b <;> simp [bstrcaseeq, asciiFold]
  | cons x a ih =>
    cases b with
    | nil => simp [bstrcaseeq, asciiFold]
    | cons y b =>
      have h := ih b
      simp only [asciiFold] at h
      simp [bstrcaseeq, asciiFold, h]

theorem asciiFold_length (a : List Nat) : (asciiFold a).length = a.length := by
  simp [asciiFold]

theorem string_eqstri_iff (a b : List Nat) :
    string_eqstri a b = true ↔ asciiFold a = asciiFold b := by
  unfold string_eqstri
  rw [Bool.and_eq_true, bstrcaseeq_iff]
  constructor
  · exact fun h => h.2
  · intro h
    refine ⟨?_, h⟩
    have := congrArg List.length h
    simpa [asciiFold_length] using this

theorem string_data_isame_iff (a b : StringData) :
    string_data_isame a b = true ↔ asciiFold a.chars = asciiFold b.chars := by
  unfold string_data_isame StringData.size
  rw [Bool.and_eq_true, bstrcaseeq_iff]
  constructor
  · exact fun h => h.2
  · intro h
    refine ⟨?_, h⟩
    have := congrArg List.length h
    simpa [asciiFold_length] using this

theorem string_data_isame_eq (a b : List Nat) :
    string_data_isame ⟨a⟩ ⟨b⟩ = string_eqstri a b := by
  rw [Bool.eq_iff_iff, string_data_isame_iff, string_eqstri_iff]

theorem get_ptr_eq_none {K V : Type} (eq : K → K → Bool) (m : hphp_hash_map K V)
    (k : K) (h : ∀ e ∈ m, eq e.1 k = false) : get_ptr eq m k = none := by
  unfold get_ptr
  rw [Option.map_eq_none', List.find?_eq_none]
  intro e he
  simp [h e he]

theorem get_ptr_eq_some {K V : Type} (eq : K → K → Bool) (m : hphp_hash_map K V)
    (k : K) (v : V) (h : get_ptr eq m k = some v) :
    ∃ e ∈ m, eq e.1 k = true ∧ e.2 = v := by
  unfold get_ptr at h
  rw [Option.map_eq_some'] at h
  obtain ⟨e, he, hv⟩ := h
  have hp : eq e.1 k = true := @List.find?_some _ (fun e => eq e.1 k) e m he
  exact ⟨e, List.mem_of_find?_eq_some he, hp, hv⟩

theorem get_ptr_makeStaticString (m : StdStrToTypeMap) (k : List Nat) :
    get_ptr string_data_isame (m.map (fun e => (makeStaticString e.1, e.2)))
        (makeStaticString k) = get_ptr string_eqstri m k := by
  induction m with
  | nil => rfl
  | cons e m ih =>
    have h0 : string_data_isame (makeStaticString e.1) (makeStaticString k) =
        string_eqstri e.1 k := string_data_isame_eq e.1 k
    unfold get_ptr at ih ⊢
    rw [List.map_cons, List.find?_cons, List.find?_cons]
    simp only [h0]
    cases string_eqstri e.1 k
    · exact ih
    · rfl

/-- Both maps hold the entries of `pairs`, in order: no assignment of the loop
hits a key that is already there. -/
theorem getAnnotTypeMaps_eq (f : Bool) :
    getAnnotTypeMaps f =
      ((pairs f).map (fun e => (makeStaticString e.1, e.2)), pairs f) := by
  cases f <;> decide

theorem nameToAnnotTypeStr_eq (f : Bool) (name : List Nat) :
    nameToAnnotTypeStr f name = Except.ok (get_ptr string_eqstri (pairs f) name) := by
  unfold nameToAnnotTypeStr
  simp only [getAnnotTypeMaps_eq]
  rw [if_neg]
  intro h
  obtain ⟨e, he, -, hv⟩ := get_ptr_eq_some _ _ _ _ h
  revert e
  cases f <;> decide

theorem nameToAnnotType_eq (f : Bool) (name : List Nat) :
    nameToAnnotType f (some (makeStaticString name)) =
      Except.ok (get_ptr string_eqstri (pairs f) name) := by
  unfold nameToAnnotType
  simp only [getAnnotTypeMaps_eq, get_ptr_makeStaticString]

theorem get_ptr_asciiFold (m : StdStrToTypeMap) (a b : List Nat)
    (h : asciiFold a = asciiFold b) :
    get_ptr string_eqstri m a = get_ptr string_eqstri m b := by
  have hp : (fun e : List Nat × AnnotType => string_eqstri e.1 a) =
      (fun e : List Nat × AnnotType => string_eqstri e.1 b) := by
    funext e
    rw [Bool.eq_iff_iff, string_eqstri_iff, string_eqstri_iff, h]
  unfold get_ptr
  rw [hp]

/-- The names of `pairs` are pairwise different ignoring ASCII case: the lookup
of an entry's name finds that entry. -/
theorem get_ptr_pairs_self (f : Bool) :
    ∀ e ∈ pairs f, get_ptr string_eqstri (pairs f) e.1 = some e.2 := by
  cases f <;> decide

/-! ## Lemmas on `isame` -/

theorem tolower_zero : tolower 0 = 0 := by decide

/-- The text read by `strcasecmp` from a range of the length of `m` equals the
NUL-free text `m` exactly when the range matches `m` ignoring ASCII case and a
NUL follows the range. -/
theorem strcasecmp_eq_zero_iff (x r m : List Nat) (hlen : x.length = m.length)
    (hm : ∀ c ∈ m, c ≠ 0) :
    strcasecmp (x ++ r) m = 0 ↔ asciiFold x = asciiFold m ∧ r.head?.getD 0 = 0 := by
  induction x generalizing m with
  | nil =>
    cases m with
    | cons b m => simp at hlen
    | nil =>
      cases r with
      | nil => simp [strcasecmp, asciiFold]
      | cons c r =>
        simp only [List.nil_append, strcasecmp, tolower_zero, asciiFold, List.map_nil,
          List.head?_cons, Option.getD_some, true_and]
        rw [← tolower_eq_zero (c := c)]
        omega
  | cons a x ih =>
    cases m with
    | nil => simp at hlen
    | cons b m =>
      have hb : b ≠ 0 := hm b (List.mem_cons_self b m)
      have hlen2 : x.length = m.length := by simpa using hlen
      have ih2 := ih m hlen2 (fun c hc => hm c (List.mem_cons_of_mem b hc))
      simp only [List.cons_append, strcasecmp, asciiFold, List.map_cons, List.cons.injEq]
      by_cases hab : tolower a = tolower b
      · have ha : a ≠ 0 := by
          intro h0
          rw [h0, tolower_zero] at hab
          exact hb (tolower_eq_zero.1 hab.symm)
        simp only [hab, ne_eq, not_true_eq_false, if_false, ha, true_and]
        simpa [asciiFold] using ih2
      · simp only [ne_eq, hab, not_false_eq_true, if_true, false_and, iff_false]
        omega

/-- The helper `isame` against a NUL-free, NUL-terminated text `m`: true exactly
when the range of `a` matches `m` ignoring ASCII case and a NUL follows the
range of `a` in its buffer. -/
theorem isame_iff (x r : List Nat) (m : StringData) (hm : ∀ c ∈ m.chars, c ≠ 0) :
    isame ⟨x, r⟩ m.slice = true ↔
      asciiFold x = asciiFold m.chars ∧ r.head?.getD 0 = 0 := by
  unfold isame StringPiece.size StringPiece.data StringData.slice
  simp only [List.append_nil, Bool.and_eq_true, beq_iff_eq]
  constructor
  · rintro ⟨hlen, h⟩
    exact (strcasecmp_eq_zero_iff x r m.chars hlen hm).1 h
  · intro h
    have hlen : x.length = m.chars.length := by
      have := congrArg List.length h.1
      simpa [asciiFold_length] using this
    exact ⟨hlen, (strcasecmp_eq_zero_iff x r m.chars hlen hm).2 h⟩

/-- Re-casing the text before a fixed continuation does not change what
`strcasecmp` returns. -/
theorem strcasecmp_asciiFold (a b r d : List Nat) (h : asciiFold a = asciiFold b) :
    strcasecmp (a ++ r) d = strcasecmp (b ++ r) d := by
  induction a generalizing b d with
  | nil =>
    cases b with
    | nil => rfl
    | cons y b => simp [asciiFold] at h
  | cons x a ih =>
    cases b with
    | nil => simp [asciiFold] at h
    | cons y b =>
      simp only [asciiFold, List.map_cons, List.cons.injEq] at h
      obtain ⟨hxy, hab⟩ := h
      have hz : x = 0 ↔ y = 0 := by
        rw [← tolower_eq_zero (c := x), ← tolower_eq_zero (c := y), hxy]
      cases d with
      | nil => simp [strcasecmp, hxy]
      | cons c d =>
        have hrec : strcasecmp (a ++ r) d = strcasecmp (b ++ r) d := ih b d hab
        simp only [List.cons_append, strcasecmp, hxy, hz, List.append_eq, hrec]

theorem isame_asciiFold (a b r : List Nat) (m : StringPiece)
    (h : asciiFold a = asciiFold b) : isame ⟨a, r⟩ m = isame ⟨b, r⟩ m := by
  unfold isame StringPiece.size StringPiece.data
  have hlen : a.length = b.length := by
    have := congrArg List.length h
    simpa [asciiFold_length] using this
  rw [hlen, strcasecmp_asciiFold a b r (m.range ++ m.rest) h]

/-! ## The name table: resolution -/

/-- C1, as stated, fails: the names `hh\INT` and `ARRAY` differ from every name
of the literal list when compared case-sensitively, and both forms of
`nameToAnnotType` resolve them, to `Int` and to `Array`, under either flag
value. -/
theorem C1_case_variant_resolves :
    ((∀ e ∈ pairs false, lit "hh\\INT" ≠ e.1) ∧
      nameToAnnotType false (some (makeStaticString (lit "hh\\INT"))) =
        Except.ok (some AnnotType.Int) ∧
      nameToAnnotTypeStr false (lit "hh\\INT") = Except.ok (some AnnotType.Int)) ∧
    ((∀ e ∈ pairs true, lit "hh\\INT" ≠ e.1) ∧
      nameToAnnotType true (some (makeStaticString (lit "hh\\INT"))) =
        Except.ok (some AnnotType.Int) ∧
      nameToAnnotTypeStr true (lit "hh\\INT") = Except.ok (some AnnotType.Int)) ∧
    ((∀ e ∈ pairs false, lit "ARRAY" ≠ e.1) ∧
      nameToAnnotType false (some (makeStaticString (lit "ARRAY"))) =
        Except.ok (some AnnotType.Array) ∧
      nameToAnnotTypeStr false (lit "ARRAY") = Except.ok (some AnnotType.Array)) ∧
    ((∀ e ∈ pairs true, lit "ARRAY" ≠ e.1) ∧
      nameToAnnotType true (some (makeStaticString (lit "ARRAY"))) =
        Except.ok (some AnnotType.Array) ∧
      nameToAnnotTypeStr true (lit "ARRAY") = Except.ok (some AnnotType.Array)) := by
  decide

/-- C1, amended: a name that differs from every name of the literal list of
`getAnnotTypeMaps` when compared ignoring ASCII case resolves to empty in both
forms of `nameToAnnotType`, under either flag value; a name that equals the
name of an entry ignoring ASCII case resolves to that entry's category in both
forms. -/
theorem C1_resolution_ignores_case (f : Bool) (name : List Nat) :
    ((∀ e ∈ pairs f, asciiFold name ≠ asciiFold e.1) →
      nameToAnnotType f (some (makeStaticString name)) = Except.ok none ∧
      nameToAnnotTypeStr f name = Except.ok none) ∧
    (∀ e ∈ pairs f, asciiFold name = asciiFold e.1 →
      nameToAnnotType f (some (makeStaticString name)) = Except.ok (some e.2) ∧
      nameToAnnotTypeStr f name = Except.ok (some e.2)) := by
  rw [nameToAnnotType_eq, nameToAnnotTypeStr_eq]
  constructor
  · intro h
    have hnone : get_ptr string_eqstri (pairs f) name = none := by
      apply get_ptr_eq_none
      intro e he
      rw [Bool.eq_false_iff]
      intro hk
      exact h e he ((string_eqstri_iff _ _).1 hk).symm
    rw [hnone]
    exact ⟨rfl, rfl⟩
  · intro e he hfold
    rw [get_ptr_asciiFold (pairs f) name e.1 hfold, get_ptr_pairs_self f e he]
    exact ⟨rfl, rfl⟩

/-- Witness of C1 amended: the name `HH\integer` matches no entry and resolves
to empty; the name `hh\INT` matches the entry `HH\int` and resolves to `Int`. -/
theorem C1_resolution_ignores_case_witness :
    ((∀ e ∈ pairs true, asciiFold (lit "HH\\integer") ≠ asciiFold e.1) ∧
      nameToAnnotType true (some (makeStaticString (lit "HH\\integer"))) = Except.ok none ∧
      nameToAnnotTypeStr true (lit "HH\\integer") = Except.ok none) ∧
    (((lit "HH\\int", AnnotType.Int) ∈ pairs true ∧
      asciiFold (lit "hh\\INT") = asciiFold (lit "HH\\int")) ∧
      nameToAnnotType true (some (makeStaticString (lit "hh\\INT"))) =
        Except.ok (some AnnotType.Int) ∧
      nameToAnnotTypeStr true (lit "hh\\INT") = Except.ok (some AnnotType.Int)) :=
  ⟨⟨by decide, (C1_resolution_ignores_case true (lit "HH\\integer")).1 (by decide)⟩,
   ⟨by decide, (C1_resolution_ignores_case true (lit "hh\\INT")).2
      (lit "HH\\int", AnnotType.Int) (by decide) (by decide)⟩⟩

/-- C2: for every entry of the literal list and either flag value, both forms
of `nameToAnnotType` return the entry's category on the entry's name; the two
maps hold one entry per entry of the list (26), so no entry is overwritten by
another while the maps are built. -/
theorem C2_every_entry_resolves (f : Bool) :
    (∀ e ∈ pairs f,
      nameToAnnotType f (some (makeStaticString e.1)) = Except.ok (some e.2) ∧
      nameToAnnotTypeStr f e.1 = Except.ok (some e.2)) ∧
    (pairs f).length = 26 ∧
    (getAnnotTypeMaps f).1 = (pairs f).map (fun e => (makeStaticString e.1, e.2)) ∧
    (getAnnotTypeMaps f).2 = pairs f := by
  cases f <;> decide

/-- C3: built with `EvalHackArrDVArrs` false the table resolves `HH\varray`,
`HH\darray`, `HH\varray_or_darray` to `VArray`, `DArray`, `VArrOrDArr`; built
with the flag true, to `Vec`, `Dict`, `VecOrDict`; every other name resolves to
the same result under both flag values, in both forms. -/
theorem C3_flag_selects_three_entries :
    (nameToAnnotTypeStr false (lit "HH\\varray") = Except.ok (some AnnotType.VArray) ∧
     nameToAnnotTypeStr false (lit "HH\\darray") = Except.ok (some AnnotType.DArray) ∧
     nameToAnnotTypeStr false (lit "HH\\varray_or_darray") =
       Except.ok (some AnnotType.VArrOrDArr)) ∧
    (nameToAnnotType false (some (makeStaticString (lit "HH\\varray"))) =
       Except.ok (some AnnotType.VArray) ∧
     nameToAnnotType false (some (makeStaticString (lit "HH\\darray"))) =
       Except.ok (some AnnotType.DArray) ∧
     nameToAnnotType false (some (makeStaticString (lit "HH\\varray_or_darray"))) =
       Except.ok (some AnnotType.VArrOrDArr)) ∧
    (nameToAnnotTypeStr true (lit "HH\\varray") = Except.ok (some AnnotType.Vec) ∧
     nameToAnnotTypeStr true (lit "HH\\darray") = Except.ok (some AnnotType.Dict) ∧
     nameToAnnotTypeStr true (lit "HH\\varray_or_darray") =
       Except.ok (some AnnotType.VecOrDict)) ∧
    (nameToAnnotType true (some (makeStaticString (lit "HH\\varray"))) =
       Except.ok (some AnnotType.Vec) ∧
     nameToAnnotType true (some (makeStaticString (lit "HH\\darray"))) =
       Except.ok (some AnnotType.Dict) ∧
     nameToAnnotType true (some (makeStaticString (lit "HH\\varray_or_darray"))) =
       Except.ok (some AnnotType.VecOrDict)) ∧
    (∀ e ∈ pairs false,
      e.1 ∉ [lit "HH\\varray", lit "HH\\darray", lit "HH\\varray_or_darray"] →
      (e ∈ pairs true ∧
       nameToAnnotTypeStr false e.1 = nameToAnnotTypeStr true e.1 ∧
       nameToAnnotType false (some (makeStaticString e.1)) =
         nameToAnnotType true (some (makeStaticString e.1)))) ∧
    (∀ name : List Nat,
      asciiFold name ∉ [asciiFold (lit "HH\\varray"), asciiFold (lit "HH\\darray"),
        asciiFold (lit "HH\\varray_or_darray")] →
      (nameToAnnotTypeStr false name = nameToAnnotTypeStr true name ∧
       nameToAnnotType false (some (makeStaticString name)) =
         nameToAnnotType true (some (makeStaticString name)))) := by
  refine ⟨by decide, by decide, by decide, by decide, by decide, ?_⟩
  intro name hname
  simp only [List.mem_cons, List.mem_singleton, List.not_mem_nil, or_false, not_or] at hname
  obtain ⟨h1, h2, h3⟩ := hname
  have e1 : string_eqstri (lit "HH\\varray") name = false := by
    rw [Bool.eq_false_iff]
    exact fun hk => h1 ((string_eqstri_iff _ _).1 hk).symm
  have e2 : string_eqstri (lit "HH\\darray") name = false := by
    rw [Bool.eq_false_iff]
    exact fun hk => h2 ((string_eqstri_iff _ _).1 hk).symm
  have e3 : string_eqstri (lit "HH\\varray_or_darray") name = false := by
    rw [Bool.eq_false_iff]
    exact fun hk => h3 ((string_eqstri_iff _ _).1 hk).symm
  have key : get_ptr string_eqstri (pairs false) name =
      get_ptr string_eqstri (pairs true) name := by
    simp only [get_ptr, pairs, List.find?_cons, e1, e2, e3]
  rw [nameToAnnotType_eq, nameToAnnotTypeStr_eq, nameToAnnotType_eq,
    nameToAnnotTypeStr_eq, key]
  exact ⟨rfl, rfl⟩

/-- C4: for every text and either flag value, `nameToAnnotType(const
std::string&)` returns a result that is not the `Object` category: its
`assertx` holds on every call. -/
theorem C4_raw_text_never_object (f : Bool) (typeName : List Nat) :
    nameToAnnotTypeStr f typeName ≠ Except.error Abort.assertx ∧
    nameToAnnotTypeStr f typeName ≠ Except.ok (some AnnotType.Object) ∧
    ∃ r, nameToAnnotTypeStr f typeName = Except.ok r ∧ r ≠ some AnnotType.Object := by
  have hno : get_ptr string_eqstri (pairs f) typeName ≠ some AnnotType.Object := by
    intro h
    obtain ⟨e, he, -, hv⟩ := get_ptr_eq_some _ _ _ _ h
    revert e
    cases f <;> decide
  rw [nameToAnnotTypeStr_eq]
  refine ⟨by simp, ?_, _, rfl, hno⟩
  intro h
  exact hno (Except.ok.inj h)

/-- C5: the two maps built by `getAnnotTypeMaps` agree: for every text and
either flag value, `nameToAnnotType` on the interned handle of the text returns
what `nameToAnnotType` returns on the raw text. -/
theorem C5_handle_and_text_agree (f : Bool) (text : List Nat) :
    nameToAnnotType f (some (makeStaticString text)) = nameToAnnotTypeStr f text := by
  rw [nameToAnnotType_eq, nameToAnnotTypeStr_eq]

/-! ## Interface capabilities -/

/-- What `interface_supports_int` and `interface_supports_double` compute on a
slice: the range is `XHPChild` ignoring ASCII case, and a NUL follows it. -/
theorem interface_supports_int_iff (s : StringPiece) :
    (interface_supports_int s = true ↔
      asciiFold s.range = asciiFold (lit "XHPChild") ∧ nulFollows s) ∧
    (interface_supports_double s = true ↔
      asciiFold s.range = asciiFold (lit "XHPChild") ∧ nulFollows s) := by
  obtain ⟨x, r⟩ := s
  unfold interface_supports_int interface_supports_double nulFollows
  rw [isame_iff x r s_XHPChild (by decide)]
  exact ⟨Iff.rfl, Iff.rfl⟩

/-- What `interface_supports_string` computes on a slice. -/
theorem interface_supports_string_iff (s : StringPiece) :
    interface_supports_string s = true ↔
      (∃ m ∈ stringNames, asciiFold s.range = asciiFold m) ∧ nulFollows s := by
  obtain ⟨x, r⟩ := s
  unfold interface_supports_string nulFollows
  simp only [Bool.or_eq_true]
  rw [isame_iff x r s_XHPChild (by decide), isame_iff x r s_Stringish (by decide)]
  simp only [stringNames, List.mem_cons, List.mem_singleton, List.not_mem_nil, or_false,
    exists_eq_or_imp, exists_eq_left]
  constructor
  · rintro (h | h)
    · exact ⟨Or.inl h.1, h.2⟩
    · exact ⟨Or.inr h.1, h.2⟩
  · rintro ⟨h | h, h0⟩
    · exact Or.inl ⟨h, h0⟩
    · exact Or.inr ⟨h, h0⟩

/-- What `interface_supports_arrlike` computes on a slice. -/
theorem interface_supports_arrlike_iff (s : StringPiece) :
    interface_supports_arrlike s = true ↔
      (∃ m ∈ arrlikeNames, asciiFold s.range = asciiFold m) ∧ nulFollows s := by
  obtain ⟨x, r⟩ := s
  unfold interface_supports_arrlike nulFollows
  simp only [Bool.or_eq_true]
  rw [isame_iff x r s_HH_Traversable (by decide),
    isame_iff x r s_HH_KeyedTraversable (by decide),
    isame_iff x r s_HH_RX_Traversable (by decide),
    isame_iff x r s_HH_RX_KeyedTraversable (by decide),
    isame_iff x r s_HH_Container (by decide),
    isame_iff x r s_HH_KeyedContainer (by decide),
    isame_iff x r s_XHPChild (by decide)]
  simp only [arrlikeNames, List.mem_cons, List.mem_singleton, List.not_mem_nil, or_false,
    exists_eq_or_imp, exists_eq_left]
  constructor
  · rintro ((((((h | h) | h) | h) | h) | h) | h)
    · exact ⟨Or.inl h.1, h.2⟩
    · exact ⟨Or.inr (Or.inl h.1), h.2⟩
    · exact ⟨Or.inr (Or.inr (Or.inl h.1)), h.2⟩
    · exact ⟨Or.inr (Or.inr (Or.inr (Or.inl h.1))), h.2⟩
    · exact ⟨Or.inr (Or.inr (Or.inr (Or.inr (Or.inl h.1)))), h.2⟩
    · exact ⟨Or.inr (Or.inr (Or.inr (Or.inr (Or.inr (Or.inl h.1))))), h.2⟩
    · exact ⟨Or.inr (Or.inr (Or.inr (Or.inr (Or.inr (Or.inr h.1))))), h.2⟩
  · rintro ⟨h | h | h | h | h | h | h, h0⟩
    · exact Or.inl (Or.inl (Or.inl (Or.inl (Or.inl (Or.inl ⟨h, h0⟩)))))
    · exact Or.inl (Or.inl (Or.inl (Or.inl (Or.inl (Or.inr ⟨h, h0⟩)))))
    · exact Or.inl (Or.inl (Or.inl (Or.inl (Or.inr ⟨h, h0⟩))))
    · exact Or.inl (Or.inl (Or.inl (Or.inr ⟨h, h0⟩)))
    · exact Or.inl (Or.inl (Or.inr ⟨h, h0⟩))
    · exact Or.inl (Or.inr ⟨h, h0⟩)
    · exact Or.inr ⟨h, h0⟩

/-- On an interned handle each capability predicate is true exactly on its set
of names, compared ignoring ASCII case. -/
theorem interface_supports_sd_iff (s : StringData) :
    (interface_supports_arrlike_sd s = true ↔
      ∃ m ∈ arrlikeNames, asciiFold s.chars = asciiFold m) ∧
    (interface_supports_string_sd s = true ↔
      ∃ m ∈ stringNames, asciiFold s.chars = asciiFold m) ∧
    (interface_supports_int_sd s = true ↔
      asciiFold s.chars = asciiFold (lit "XHPChild")) ∧
    (interface_supports_double_sd s = true ↔
      asciiFold s.chars = asciiFold (lit "XHPChild")) := by
  have h0 : nulFollows s.slice := rfl
  unfold interface_supports_arrlike_sd interface_supports_string_sd
    interface_supports_int_sd interface_supports_double_sd
  rw [interface_supports_arrlike_iff, interface_supports_string_iff,
    (interface_supports_int_iff s.slice).1, (interface_supports_int_iff s.slice).2]
  simp only [h0, and_true]
  exact ⟨Iff.rfl, Iff.rfl, Iff.rfl, Iff.rfl⟩

/-- C6, at the failing input: the slice of the first 8 `char`s of the buffer
`XHPChildren` has the content `XHPChild`, a member of all four sets, and no
NUL follows it; `isame` passes the size test and `strcasecmp` then reads on
past the slice, so all four predicates return false on it. -/
theorem C6_member_in_longer_buffer_rejected :
    (⟨lit "XHPChild", lit "ren"⟩ : StringPiece).size = 8 ∧
    (⟨lit "XHPChild", lit "ren"⟩ : StringPiece).data = lit "XHPChildren" ∧
    (⟨lit "XHPChild", lit "ren"⟩ : StringPiece).range ∈ arrlikeNames ∧
    (⟨lit "XHPChild", lit "ren"⟩ : StringPiece).range ∈ stringNames ∧
    interface_supports_arrlike ⟨lit "XHPChild", lit "ren"⟩ = false ∧
    interface_supports_string ⟨lit "XHPChild", lit "ren"⟩ = false ∧
    interface_supports_int ⟨lit "XHPChild", lit "ren"⟩ = false ∧
    interface_supports_double ⟨lit "XHPChild", lit "ren"⟩ = false := by
  decide

theorem strcasecmp_l_tolower (p1 p2 : List Nat) :
    strcasecmp_l tolower p1 p2 = strcasecmp p1 p2 := by
  induction p1 generalizing p2 with
  | nil => cases p2 <;> rfl
  | cons c1 p1 ih =>
    cases p2 with
    | nil => rfl
    | cons c2 p2 => simp only [strcasecmp_l, strcasecmp, ih]

/-- In the "C" locale the predicates of a locale are the predicates of the
sections above. -/
theorem interface_supports_l_tolower (s : StringPiece) :
    interface_supports_arrlike_l tolower s = interface_supports_arrlike s ∧
    interface_supports_string_l tolower s = interface_supports_string s ∧
    interface_supports_int_l tolower s = interface_supports_int s ∧
    interface_supports_double_l tolower s = interface_supports_double s ∧
    interface_supports_non_objects_l tolower s = interface_supports_non_objects s := by
  have key : ∀ a b : StringPiece, isame_l tolower a b = isame a b := by
    intro a b
    unfold isame_l isame
    rw [strcasecmp_l_tolower]
  simp only [interface_supports_arrlike_l, interface_supports_string_l,
    interface_supports_int_l, interface_supports_double_l,
    interface_supports_non_objects_l, interface_supports_arrlike,
    interface_supports_string, interface_supports_int, interface_supports_double,
    interface_supports_non_objects, key, and_self]

/-- Two texts with the same folds under `tolower_l`, a fold that sends among
their `char`s exactly NUL to NUL, compare alike with every text, whatever
follows them. -/
theorem strcasecmp_l_recase (tolower_l : Nat → Nat) (a b r d : List Nat)
    (h : a.map tolower_l = b.map tolower_l)
    (hza : ∀ c ∈ a, (tolower_l c = 0 ↔ c = 0))
    (hzb : ∀ c ∈ b, (tolower_l c = 0 ↔ c = 0)) :
    strcasecmp_l tolower_l (a ++ r) d = strcasecmp_l tolower_l (b ++ r) d := by
  induction a generalizing b d with
  | nil =>
    cases b with
    | nil => rfl
    | cons y b => simp at h
  | cons x a ih =>
    cases b with
    | nil => simp at h
    | cons y b =>
      simp only [List.map_cons, List.cons.injEq] at h
      obtain ⟨hxy, hab⟩ := h
      have hz : x = 0 ↔ y = 0 := by
        rw [← hza x (List.mem_cons_self x a), ← hzb y (List.mem_cons_self y b), hxy]
      cases d with
      | nil => simp [strcasecmp_l, hxy]
      | cons c d =>
        have hrec : strcasecmp_l tolower_l (a ++ r) d =
            strcasecmp_l tolower_l (b ++ r) d :=
          ih b d hab (fun c hc => hza c (List.mem_cons_of_mem x hc))
            (fun c hc => hzb c (List.mem_cons_of_mem y hc))
        simp only [List.cons_append, strcasecmp_l, hxy, hz, List.append_eq, hrec]

/-- C7, as stated, fails: `strcasecmp` folds with the `tolower` of the current
locale.  In a Turkish locale the names `Stringish` and `STRINGISH`, equal after
ASCII case folding, get different results from the string and the non-objects
predicates, because `'I'` folds to the dotless `ı` and not to `'i'`. -/
theorem C7_turkish_locale_breaks_recasing :
    asciiFold (lit "Stringish") = asciiFold (lit "STRINGISH") ∧
    interface_supports_string_l tolower_tr ⟨lit "Stringish", []⟩ = true ∧
    interface_supports_string_l tolower_tr ⟨lit "STRINGISH", []⟩ = false ∧
    interface_supports_non_objects_l tolower_tr ⟨lit "Stringish", []⟩ = true ∧
    interface_supports_non_objects_l tolower_tr ⟨lit "STRINGISH", []⟩ = false ∧
    interface_supports_string_sd_l tolower_tr ⟨lit "Stringish"⟩ = true ∧
    interface_supports_string_sd_l tolower_tr ⟨lit "STRINGISH"⟩ = false ∧
    interface_supports_non_objects_sd_l tolower_tr ⟨lit "Stringish"⟩ = true ∧
    interface_supports_non_objects_sd_l tolower_tr ⟨lit "STRINGISH"⟩ = false := by
  decide

/-- C7, amended: in a locale whose `tolower` acts on the `char`s of two names
`a` and `b` as the ASCII fold (as the "C" locale does on every name), the
capability predicates are invariant under ASCII re-casing: when `a` and `b` are
equal after ASCII case folding, each of the five predicates returns the same
result on `a` as on `b`, in the handle form and in the slice form (for the
slice of `a` and the slice of `b` followed by the same `char`s). -/
theorem C7_recasing_invariant_in_ascii_locale (tolower_l : Nat → Nat)
    (a b rest : List Nat)
    (hloc : ∀ c ∈ a ++ b, tolower_l c = tolower c)
    (h : asciiFold a = asciiFold b) :
    (interface_supports_arrlike_l tolower_l ⟨a, rest⟩ =
       interface_supports_arrlike_l tolower_l ⟨b, rest⟩ ∧
     interface_supports_string_l tolower_l ⟨a, rest⟩ =
       interface_supports_string_l tolower_l ⟨b, rest⟩ ∧
     interface_supports_int_l tolower_l ⟨a, rest⟩ =
       interface_supports_int_l tolower_l ⟨b, rest⟩ ∧
     interface_supports_double_l tolower_l ⟨a, rest⟩ =
       interface_supports_double_l tolower_l ⟨b, rest⟩ ∧
     interface_supports_non_objects_l tolower_l ⟨a, rest⟩ =
       interface_supports_non_objects_l tolower_l ⟨b, rest⟩) ∧
    (interface_supports_arrlike_sd_l tolower_l ⟨a⟩ =
       interface_supports_arrlike_sd_l tolower_l ⟨b⟩ ∧
     interface_supports_string_sd_l tolower_l ⟨a⟩ =
       interface_supports_string_sd_l tolower_l ⟨b⟩ ∧
     interface_supports_int_sd_l tolower_l ⟨a⟩ =
       interface_supports_int_sd_l tolower_l ⟨b⟩ ∧
     interface_supports_double_sd_l tolower_l ⟨a⟩ =
       interface_supports_double_sd_l tolower_l ⟨b⟩ ∧
     interface_supports_non_objects_sd_l tolower_l ⟨a⟩ =
       interface_supports_non_objects_sd_l tolower_l ⟨b⟩) := by
  have hla : ∀ c ∈ a, tolower_l c = tolower c :=
    fun c hc => hloc c (List.mem_append_left b hc)
  have hlb : ∀ c ∈ b, tolower_l c = tolower c :=
    fun c hc => hloc c (List.mem_append_right a hc)
  have hmap : a.map tolower_l = b.map tolower_l := by
    rw [List.map_congr_left hla, List.map_congr_left hlb]
    exact h
  have hza : ∀ c ∈ a, (tolower_l c = 0 ↔ c = 0) := by
    intro c hc
    rw [hla c hc]
    exact tolower_eq_zero
  have hzb : ∀ c ∈ b, (tolower_l c = 0 ↔ c = 0) := by
    intro c hc
    rw [hlb c hc]
    exact tolower_eq_zero
  have hlen : a.length = b.length := by
    have := congrArg List.length h
    simpa [asciiFold_length] using this
  have key : ∀ (r : List Nat) (m : StringPiece),
      isame_l tolower_l ⟨a, r⟩ m = isame_l tolower_l ⟨b, r⟩ m := by
    intro r m
    unfold isame_l StringPiece.size StringPiece.data
    rw [hlen, strcasecmp_l_recase tolower_l a b r (m.range ++ m.rest) hmap hza hzb]
  simp only [interface_supports_arrlike_sd_l, interface_supports_string_sd_l,
    interface_supports_int_sd_l, interface_supports_double_sd_l,
    interface_supports_non_objects_sd_l, interface_supports_non_objects_l,
    interface_supports_arrlike_l, interface_supports_string_l,
    interface_supports_int_l, interface_supports_double_l, StringData.slice, key,
    and_self]

/-- Witness of C7 amended.  In the "C" locale, with the evaluations the claim
names: `hh\traversable` and `Hh\TRAVERSABLE` are equal after folding; the
array-like predicate is true on `hh\traversable`, `HH\Traversable` and
`Hh\TRAVERSABLE`, false on `Stringish`, where the non-objects predicate is
true; the string predicate is true on `XHPChild`.  In the Turkish locale, for
`XHPChild` and `xhpchild`, names without the letter `I`. -/
theorem C7_recasing_invariant_in_ascii_locale_witness :
    ((∀ c ∈ lit "hh\\traversable" ++ lit "Hh\\TRAVERSABLE", tolower c = tolower c) ∧
      asciiFold (lit "hh\\traversable") = asciiFold (lit "Hh\\TRAVERSABLE")) ∧
    interface_supports_arrlike_sd_l tolower ⟨lit "hh\\traversable"⟩ =
      interface_supports_arrlike_sd_l tolower ⟨lit "Hh\\TRAVERSABLE"⟩ ∧
    (interface_supports_arrlike_sd_l tolower ⟨lit "hh\\traversable"⟩ = true ∧
     interface_supports_arrlike_sd_l tolower ⟨lit "HH\\Traversable"⟩ = true ∧
     interface_supports_arrlike_sd_l tolower ⟨lit "Hh\\TRAVERSABLE"⟩ = true ∧
     interface_supports_arrlike_sd_l tolower ⟨lit "Stringish"⟩ = false ∧
     interface_supports_non_objects_sd_l tolower ⟨lit "Stringish"⟩ = true ∧
     interface_supports_string_sd_l tolower ⟨lit "XHPChild"⟩ = true) ∧
    ((∀ c ∈ lit "XHPChild" ++ lit "xhpchild", tolower_tr c = tolower c) ∧
      asciiFold (lit "XHPChild") = asciiFold (lit "xhpchild")) ∧
    interface_supports_int_sd_l tolower_tr ⟨lit "XHPChild"⟩ =
      interface_supports_int_sd_l tolower_tr ⟨lit "xhpchild"⟩ ∧
    interface_supports_int_sd_l tolower_tr ⟨lit "xhpchild"⟩ = true :=
  ⟨⟨by decide, by decide⟩,
   (C7_recasing_invariant_in_ascii_locale tolower (lit "hh\\traversable")
     (lit "Hh\\TRAVERSABLE") [] (by decide) (by decide)).2.1,
   by decide,
   ⟨by decide, by decide⟩,
   (C7_recasing_invariant_in_ascii_locale tolower_tr (lit "XHPChild")
     (lit "xhpchild") [] (by decide) (by decide)).2.2.2.1,
   by decide⟩

/-- C8: for every name, `interface_supports_non_objects` equals
`interface_supports_arrlike` OR `interface_supports_string`, in the slice form
and in the handle form, although the code tests `Stringish` alone in place of
calling `interface_supports_string`. -/
theorem C8_non_objects_is_arrlike_or_string :
    (∀ s : StringPiece, interface_supports_non_objects s =
      (interface_supports_arrlike s || interface_supports_string s)) ∧
    (∀ s : StringData, interface_supports_non_objects_sd s =
      (interface_supports_arrlike_sd s || interface_supports_string_sd s)) := by
  have key : ∀ s : StringPiece, interface_supports_non_objects s =
      (interface_supports_arrlike s || interface_supports_string s) := by
    intro s
    unfold interface_supports_non_objects interface_supports_string
      interface_supports_arrlike
    cases isame s s_XHPChild.slice <;> cases isame s s_Stringish.slice <;> simp
  exact ⟨key, fun s => key s.slice⟩

/-- C9, at the failing input: the name `HH\Container` is array-like capable in
the handle form, and the slice of the first 12 `char`s of the buffer
`HH\Container<int>`, whose content is that name, is not: the `char`s that
follow the slice in its buffer decide what `isame` returns. -/
theorem C9_slice_of_longer_buffer_disagrees :
    (⟨lit "HH\\Container", lit "<int>"⟩ : StringPiece).range =
      (StringData.slice ⟨lit "HH\\Container"⟩).range ∧
    (⟨lit "HH\\Container", lit "<int>"⟩ : StringPiece).data = lit "HH\\Container<int>" ∧
    interface_supports_arrlike_sd ⟨lit "HH\\Container"⟩ = true ∧
    interface_supports_arrlike ⟨lit "HH\\Container", lit "<int>"⟩ = false ∧
    interface_supports_non_objects_sd ⟨lit "HH\\Container"⟩ = true ∧
    interface_supports_non_objects ⟨lit "HH\\Container", lit "<int>"⟩ = false ∧
    isame ⟨lit "HH\\Container", []⟩ s_HH_Container.slice = true ∧
    isame ⟨lit "HH\\Container", lit "<int>"⟩ s_HH_Container.slice = false := by
  decide

/-! ## Default values -/

/-- C10: `annotDefaultValue` is total over the 27 tags: for every tag exactly
one arm of the switch carries it as a label and the function returns that
arm's value, so `always_assert(false)` is not reached; the tags of the name
table, under either flag value, are among them. -/
theorem C10_annotDefaultValue_total :
    (∀ t : AnnotType,
      (annotDefaultValue.arms.filter (fun arm => arm.1.contains t)).length = 1 ∧
      (∃ arm ∈ annotDefaultValue.arms, arm.1.contains t = true ∧
        annotDefaultValue t = Except.ok arm.2) ∧
      annotDefaultValue t ≠ Except.error Abort.always_assert) ∧
    (annotDefaultValue.arms.map (fun arm => arm.1)).flatten.length = 27 ∧
    (annotDefaultValue.arms.map (fun arm => arm.1)).flatten.Nodup ∧
    (∀ f : Bool, ∀ e ∈ pairs f, ∃ v, annotDefaultValue e.2 = Except.ok v) := by
  have h1 : ∀ t : AnnotType,
      (annotDefaultValue.arms.filter (fun arm => arm.1.contains t)).length = 1 ∧
      (∃ arm ∈ annotDefaultValue.arms, arm.1.contains t = true ∧
        annotDefaultValue t = Except.ok arm.2) ∧
      annotDefaultValue t ≠ Except.error Abort.always_assert := by
    intro t
    cases t <;> decide
  refine ⟨h1, by decide, by decide, ?_⟩
  intro f e _
  obtain ⟨arm, _, _, h⟩ := (h1 e.2).2.1
  exact ⟨arm.2, h⟩

/-! ## The static table across calls -/

theorem nameToAnnotType_call_built (fl f0 : Bool) (typeName : StringData) :
    nameToAnnotType.call ⟨fl, some (getAnnotTypeMaps f0)⟩ (some typeName) =
      (nameToAnnotType f0 (some typeName), ⟨fl, some (getAnnotTypeMaps f0)⟩) := rfl

theorem nameToAnnotType_call_first (fl : Bool) (typeName : StringData) :
    nameToAnnotType.call ⟨fl, none⟩ (some typeName) =
      (nameToAnnotType fl (some typeName), ⟨fl, some (getAnnotTypeMaps fl)⟩) := rfl

theorem nameToAnnotTypeStr_call_built (fl f0 : Bool) (typeName : List Nat) :
    nameToAnnotTypeStr.call ⟨fl, some (getAnnotTypeMaps f0)⟩ typeName =
      (nameToAnnotTypeStr f0 typeName, ⟨fl, some (getAnnotTypeMaps f0)⟩) := rfl

theorem nameToAnnotTypeStr_call_first (fl : Bool) (typeName : List Nat) :
    nameToAnnotTypeStr.call ⟨fl, none⟩ typeName =
      (nameToAnnotTypeStr fl typeName, ⟨fl, some (getAnnotTypeMaps fl)⟩) := rfl

theorem nameToAnnotType_some_eq (f : Bool) (typeName : StringData) :
    nameToAnnotType f (some typeName) =
      Except.ok (get_ptr string_eqstri (pairs f) typeName.chars) :=
  nameToAnnotType_eq f typeName.chars

/-- Once the static is initialised with the table of the flag value `f0`, every
call answers from that table, whatever the flag is and becomes. -/
theorem run_built (f0 : Bool) (evs : List Event) :
    ∀ fl : Bool, run ⟨fl, some (getAnnotTypeMaps f0)⟩ evs = evs.filterMap (answer f0) := by
  induction evs with
  | nil => intro fl; rfl
  | cons ev evs ih =>
    intro fl
    cases ev with
    | setFlag b =>
      simp only [run, List.filterMap_cons, answer]
      exact ih b
    | resolveHandle typeName =>
      simp only [run, List.filterMap_cons, answer, nameToAnnotType_call_built,
        nameToAnnotType_some_eq]
      rw [ih fl]
    | resolveText typeName =>
      simp only [run, List.filterMap_cons, answer, nameToAnnotTypeStr_call_built,
        nameToAnnotTypeStr_eq]
      rw [ih fl]

/-- C13: the name table is fixed by the flag value seen at its first
construction.  In every sequence of resolution calls interleaved with
assignments of `EvalHackArrDVArrs`, started before the table exists, each call
returns the result given by the table built with the flag value that was
current at the first call, whatever the flag is at the time of the call; for
example `HH\varray` still resolves to `VArray` after the flag is set. -/
theorem C13_table_fixed_at_first_call :
    (∀ (flag : Bool) (evs : List Event),
      run ⟨flag, none⟩ evs = evs.filterMap (answer (flagAtFirstCall flag evs))) ∧
    run ⟨false, none⟩ [Event.resolveText (lit "HH\\varray"), Event.setFlag true,
        Event.resolveText (lit "HH\\varray"),
        Event.resolveHandle (makeStaticString (lit "HH\\darray"))] =
      [Except.ok (some AnnotType.VArray), Except.ok (some AnnotType.VArray),
       Except.ok (some AnnotType.DArray)] ∧
    run ⟨false, none⟩ [Event.setFlag true, Event.resolveText (lit "HH\\varray"),
        Event.setFlag false, Event.resolveText (lit "HH\\varray")] =
      [Except.ok (some AnnotType.Vec), Except.ok (some AnnotType.Vec)] := by
  refine ⟨?_, by decide, by decide⟩
  intro flag evs
  induction evs generalizing flag with
  | nil => rfl
  | cons ev evs ih =>
    cases ev with
    | setFlag b =>
      simp only [run, List.filterMap_cons, answer, flagAtFirstCall]
      exact ih b
    | resolveHandle typeName =>
      simp only [run, List.filterMap_cons, answer, flagAtFirstCall,
        nameToAnnotType_call_first, nameToAnnotType_some_eq]
      rw [run_built]
    | resolveText typeName =>
      simp only [run, List.filterMap_cons, answer, flagAtFirstCall,
        nameToAnnotTypeStr_call_first, nameToAnnotTypeStr_eq]
      rw [run_built]

/-! ## Default values: the policy table -/

/-- C11: `annotDefaultValue` follows the scalar policy table: it returns the
null value exactly for the eleven null-like categories, integer zero exactly
for `Nonnull`, `Number`, `ArrayKey`, `Int`, boolean false exactly for `Bool`,
floating zero exactly for `Float`, the shared empty string exactly for
`String`; and the value it returns is a null, integer, boolean, float or
string value for no other category. -/
theorem C11_scalar_policy (t : AnnotType) :
    (annotDefaultValue t = Except.ok (make_tv DataType.KindOfNull Value.unset) ↔
      t ∈ nullCategories) ∧
    (annotDefaultValue t = Except.ok (make_tv DataType.KindOfInt64 (Value.num 0)) ↔
      t ∈ intCategories) ∧
    (annotDefaultValue t = Except.ok (make_tv DataType.KindOfBoolean (Value.boolean false)) ↔
      t = AnnotType.Bool) ∧
    (annotDefaultValue t = Except.ok (make_tv DataType.KindOfDouble (Value.dbl 0)) ↔
      t = AnnotType.Float) ∧
    (annotDefaultValue t =
        Except.ok (make_tv DataType.KindOfPersistentString
          (Value.pstr StaticObject.staticEmptyString)) ↔
      t = AnnotType.String) ∧
    (∀ v, annotDefaultValue t = Except.ok v →
      (v.m_type ∈ scalarTypes ↔
        t ∈ nullCategories ++ intCategories ++
          [AnnotType.Bool, AnnotType.Float, AnnotType.String])) := by
  refine ⟨by cases t <;> decide, by cases t <;> decide, by cases t <;> decide,
    by cases t <;> decide, by cases t <;> decide, ?_⟩
  intro v h
  cases t <;> (cases h; decide)

/-- C12: for every array-representation category `annotDefaultValue` returns
the shared empty instance of a representation that the category admits:
`Array`, `Dict`, `Vec`, `Keyset`, `VArray`, `DArray` each the empty instance of
their own representation, `VecOrDict` and `ArrayLike` the empty vec,
`VArrOrDArr` the empty varray. -/
theorem C12_array_defaults_belong :
    (annotDefaultValue AnnotType.Array =
        Except.ok (make_persistent_array_like_tv StaticObject.staticEmptyArray) ∧
     annotDefaultValue AnnotType.Dict =
        Except.ok (make_tv DataType.KindOfPersistentDict
          (Value.parr StaticObject.staticEmptyDictArray)) ∧
     annotDefaultValue AnnotType.Vec =
        Except.ok (make_tv DataType.KindOfPersistentVec
          (Value.parr StaticObject.staticEmptyVec)) ∧
     annotDefaultValue AnnotType.Keyset =
        Except.ok (make_tv DataType.KindOfPersistentKeyset
          (Value.parr StaticObject.staticEmptyKeysetArray)) ∧
     annotDefaultValue AnnotType.VArray =
        Except.ok (make_persistent_array_like_tv StaticObject.staticEmptyVArray) ∧
     annotDefaultValue AnnotType.DArray =
        Except.ok (make_persistent_array_like_tv StaticObject.staticEmptyDArray) ∧
     annotDefaultValue AnnotType.VecOrDict =
        Except.ok (make_tv DataType.KindOfPersistentVec
          (Value.parr StaticObject.staticEmptyVec)) ∧
     annotDefaultValue AnnotType.VArrOrDArr =
        Except.ok (make_persistent_array_like_tv StaticObject.staticEmptyVArray) ∧
     annotDefaultValue AnnotType.ArrayLike =
        Except.ok (make_tv DataType.KindOfPersistentVec
          (Value.parr StaticObject.staticEmptyVec))) ∧
    (∀ t ∈ arrayCategories, ∃ v obj,
      annotDefaultValue t = Except.ok v ∧ v.m_data = Value.parr obj ∧
      admits t obj.representation = true) := by
  refine ⟨by decide, ?_⟩
  intro t ht
  simp only [arrayCategories, List.mem_cons, List.mem_singleton, List.not_mem_nil,
    or_false] at ht
  rcases ht with rfl | rfl | rfl | rfl | rfl | rfl | rfl | rfl | rfl <;>
    exact ⟨_, _, rfl, rfl, rfl⟩

/-- C14: for every container or string category, `annotDefaultValue` returns a
value of a persistent type whose payload points to one static object, the same
on every call: two calls with the category return pointers to the identical
shared instance. -/
theorem C14_defaults_are_shared_instances :
    ∀ t ∈ arrayCategories ++ [AnnotType.String], ∃ obj : StaticObject,
      (∃ v, annotDefaultValue t = Except.ok v) ∧
      (∀ v1 v2, annotDefaultValue t = Except.ok v1 → annotDefaultValue t = Except.ok v2 →
        v1.pointer = some obj ∧ v2.pointer = some obj ∧
        v1.m_type.isPersistent = true ∧ v2.m_type.isPersistent = true) := by
  intro t ht
  simp only [arrayCategories, List.cons_append, List.nil_append, List.mem_cons,
    List.mem_singleton, List.not_mem_nil, or_false] at ht
  rcases ht with rfl | rfl | rfl | rfl | rfl | rfl | rfl | rfl | rfl | rfl
  · exact ⟨StaticObject.staticEmptyArray, ⟨_, rfl⟩, by
      intro v1 v2 h1 h2; cases h1; cases h2; decide⟩
  · exact ⟨StaticObject.staticEmptyDictArray, ⟨_, rfl⟩, by
      intro v1 v2 h1 h2; cases h1; cases h2; decide⟩
  · exact ⟨StaticObject.staticEmptyVec, ⟨_, rfl⟩, by
      intro v1 v2 h1 h2; cases h1; cases h2; decide⟩
  · exact ⟨StaticObject.staticEmptyKeysetArray, ⟨_, rfl⟩, by
      intro v1 v2 h1 h2; cases h1; cases h2; decide⟩
  · exact ⟨StaticObject.staticEmptyVArray, ⟨_, rfl⟩, by
      intro v1 v2 h1 h2; cases h1; cases h2; decide⟩
  · exact ⟨StaticObject.staticEmptyDArray, ⟨_, rfl⟩, by
      intro v1 v2 h1 h2; cases h1; cases h2; decide⟩
  · exact ⟨StaticObject.staticEmptyVec, ⟨_, rfl⟩, by
      intro v1 v2 h1 h2; cases h1; cases h2; decide⟩
  · exact ⟨StaticObject.staticEmptyVArray, ⟨_, rfl⟩, by
      intro v1 v2 h1 h2; cases h1; cases h2; decide⟩
  · exact ⟨StaticObject.staticEmptyVec, ⟨_, rfl⟩, by
      intro v1 v2 h1 h2; cases h1; cases h2; decide⟩
  · exact ⟨StaticObject.staticEmptyString, ⟨_, rfl⟩, by
      intro v1 v2 h1 h2; cases h1; cases h2; decide⟩

/-- Witness of C14: the category `Vec` is a container category, and its
default points to one static object on every call. -/
theorem C14_defaults_are_shared_instances_witness :
    AnnotType.Vec ∈ arrayCategories ++ [AnnotType.String] ∧
    ∃ obj : StaticObject,
      (∃ v, annotDefaultValue AnnotType.Vec = Except.ok v) ∧
      (∀ v1 v2, annotDefaultValue AnnotType.Vec = Except.ok v1 →
        annotDefaultValue AnnotType.Vec = Except.ok v2 →
        v1.pointer = some obj ∧ v2.pointer = some obj ∧
        v1.m_type.isPersistent = true ∧ v2.m_type.isPersistent = true) :=
  ⟨by decide, C14_defaults_are_shared_instances AnnotType.Vec (by decide)⟩

/-! ## The name table and the capabilities together -/

/-- C16: for every handle and either flag value, `nameToAnnotType(const
StringData*)` returns neither `Object` nor `Record`; no entry of either map
carries one of them. -/
theorem C16_handle_never_object_or_record (f : Bool) (typeName : StringData) :
    nameToAnnotType f (some typeName) ≠ Except.ok (some AnnotType.Object) ∧
    nameToAnnotType f (some typeName) ≠ Except.ok (some AnnotType.Record) ∧
    (∀ e ∈ (getAnnotTypeMaps f).1, e.2 ≠ AnnotType.Object ∧ e.2 ≠ AnnotType.Record) ∧
    (∀ e ∈ (getAnnotTypeMaps f).2, e.2 ≠ AnnotType.Object ∧ e.2 ≠ AnnotType.Record) := by
  have hvals : ∀ e ∈ pairs f, e.2 ≠ AnnotType.Object ∧ e.2 ≠ AnnotType.Record := by
    cases f <;> decide
  have hno : ∀ t, get_ptr string_eqstri (pairs f) typeName.chars = some t →
      t ≠ AnnotType.Object ∧ t ≠ AnnotType.Record := by
    intro t h
    obtain ⟨e, he, -, hv⟩ := get_ptr_eq_some _ _ _ _ h
    rw [← hv]
    exact hvals e he
  rw [nameToAnnotType_some_eq]
  refine ⟨?_, ?_, by cases f <;> decide, by cases f <;> decide⟩
  · intro h
    exact (hno _ (Except.ok.inj h)).1 rfl
  · intro h
    exact (hno _ (Except.ok.inj h)).2 rfl

/-- C17: the capability sets are nested around `XHPChild`: for every name the
int predicate equals the double predicate, and where the int predicate holds
the string, array-like and non-objects predicates hold; in the slice form and
in the handle form. -/
theorem C17_capabilities_nested :
    (∀ s : StringPiece,
      interface_supports_int s = interface_supports_double s ∧
      (interface_supports_int s = true →
        interface_supports_string s = true ∧ interface_supports_arrlike s = true ∧
        interface_supports_non_objects s = true)) ∧
    (∀ s : StringData,
      interface_supports_int_sd s = interface_supports_double_sd s ∧
      (interface_supports_int_sd s = true →
        interface_supports_string_sd s = true ∧ interface_supports_arrlike_sd s = true ∧
        interface_supports_non_objects_sd s = true)) := by
  have key : ∀ s : StringPiece,
      interface_supports_int s = interface_supports_double s ∧
      (interface_supports_int s = true →
        interface_supports_string s = true ∧ interface_supports_arrlike s = true ∧
        interface_supports_non_objects s = true) := by
    intro s
    refine ⟨rfl, ?_⟩
    intro h
    unfold interface_supports_int at h
    simp [interface_supports_string, interface_supports_arrlike,
      interface_supports_non_objects, h]
  exact ⟨key, fun s => key s.slice⟩

theorem interface_supports_non_objects_eq (s : StringPiece) :
    interface_supports_non_objects s =
      (interface_supports_arrlike s || interface_supports_string s) := by
  unfold interface_supports_non_objects interface_supports_string
    interface_supports_arrlike
  cases isame s s_XHPChild.slice <;> cases isame s s_Stringish.slice <;> simp

/-- No name of the table equals an interface name of the capability sets,
ignoring ASCII case. -/
theorem pairs_names_not_interfaces (f : Bool) :
    ∀ e ∈ pairs f, ∀ m ∈ arrlikeNames ++ stringNames, asciiFold e.1 ≠ asciiFold m := by
  cases f <;> decide

/-- A name that the table resolves has every capability predicate false, on
every slice with that content. -/
theorem resolved_name_no_capability (f : Bool) (name rest : List Nat) (t : AnnotType)
    (h : get_ptr string_eqstri (pairs f) name = some t) :
    interface_supports_arrlike ⟨name, rest⟩ = false ∧
    interface_supports_string ⟨name, rest⟩ = false ∧
    interface_supports_int ⟨name, rest⟩ = false ∧
    interface_supports_double ⟨name, rest⟩ = false ∧
    interface_supports_non_objects ⟨name, rest⟩ = false := by
  obtain ⟨e, he, hk, -⟩ := get_ptr_eq_some _ _ _ _ h
  have hfold : asciiFold e.1 = asciiFold name := (string_eqstri_iff _ _).1 hk
  have hne := pairs_names_not_interfaces f e he
  have harr : interface_supports_arrlike ⟨name, rest⟩ = false := by
    rw [Bool.eq_false_iff]
    intro htrue
    obtain ⟨⟨m, hm, hmf⟩, -⟩ := (interface_supports_arrlike_iff _).1 htrue
    exact hne m (List.mem_append_left _ hm) (hfold.trans hmf)
  have hstr : interface_supports_string ⟨name, rest⟩ = false := by
    rw [Bool.eq_false_iff]
    intro htrue
    obtain ⟨⟨m, hm, hmf⟩, -⟩ := (interface_supports_string_iff _).1 htrue
    exact hne m (List.mem_append_right _ hm) (hfold.trans hmf)
  have hint : interface_supports_int ⟨name, rest⟩ = false := by
    rw [Bool.eq_false_iff]
    intro htrue
    have hmf := ((interface_supports_int_iff _).1.1 htrue).1
    exact hne (lit "XHPChild") (by decide) (hfold.trans hmf)
  refine ⟨harr, hstr, hint, hint, ?_⟩
  rw [interface_supports_non_objects_eq, harr, hstr]
  rfl

/-- C18: builtin type names and capability interface names are disjoint: when
`nameToAnnotType`, in either form and under either flag value, resolves a name
to a category, all five capability predicates are false on that name, in the
handle form and on every slice with that content. -/
theorem C18_resolved_names_have_no_capability (f : Bool) (name : List Nat)
    (t : AnnotType)
    (h : nameToAnnotType f (some (makeStaticString name)) = Except.ok (some t) ∨
      nameToAnnotTypeStr f name = Except.ok (some t)) :
    (interface_supports_non_objects_sd (makeStaticString name) = false ∧
     interface_supports_arrlike_sd (makeStaticString name) = false ∧
     interface_supports_string_sd (makeStaticString name) = false ∧
     interface_supports_int_sd (makeStaticString name) = false ∧
     interface_supports_double_sd (makeStaticString name) = false) ∧
    (∀ rest : List Nat,
      interface_supports_non_objects ⟨name, rest⟩ = false ∧
      interface_supports_arrlike ⟨name, rest⟩ = false ∧
      interface_supports_string ⟨name, rest⟩ = false ∧
      interface_supports_int ⟨name, rest⟩ = false ∧
      interface_supports_double ⟨name, rest⟩ = false) := by
  have hget : get_ptr string_eqstri (pairs f) name = some t := by
    rw [nameToAnnotType_eq, nameToAnnotTypeStr_eq] at h
    rcases h with h | h <;> exact Except.ok.inj h
  have key := fun rest => resolved_name_no_capability f name rest t hget
  refine ⟨?_, fun rest => ?_⟩
  · obtain ⟨h1, h2, h3, h4, h5⟩ := key []
    exact ⟨h5, h1, h2, h3, h4⟩
  · obtain ⟨h1, h2, h3, h4, h5⟩ := key rest
    exact ⟨h5, h1, h2, h3, h4⟩

/-- Witness of C18: `HH\int` resolves to `Int`, and no capability predicate
holds on it. -/
theorem C18_resolved_names_have_no_capability_witness :
    (nameToAnnotType true (some (makeStaticString (lit "HH\\int"))) =
        Except.ok (some AnnotType.Int) ∨
      nameToAnnotTypeStr true (lit "HH\\int") = Except.ok (some AnnotType.Int)) ∧
    (interface_supports_non_objects_sd (makeStaticString (lit "HH\\int")) = false ∧
     interface_supports_arrlike_sd (makeStaticString (lit "HH\\int")) = false ∧
     interface_supports_string_sd (makeStaticString (lit "HH\\int")) = false ∧
     interface_supports_int_sd (makeStaticString (lit "HH\\int")) = false ∧
     interface_supports_double_sd (makeStaticString (lit "HH\\int")) = false) :=
  ⟨by decide,
   (C18_resolved_names_have_no_capability true (lit "HH\\int") AnnotType.Int
     (Or.inl (by decide))).1⟩

end HPHP
